import Mathlib

/-!
Verification of the codec core of the product_decode_js repository.

The development shallowly embeds two source modules:

- the thermostat downlink encoder and its Modbus CRC-16 checksum unit
  (source file src/js/EF5600-DN1.js, second embedded document: helper
  functions modbusCRC16, getValueForRegister, the REGISTER_MAP table and
  the control-command path of encodeDownlink), and
- the unified uplink decoder (source file src/unnamed/part_004: the
  MODEL_MAP table, readStringNullTerm, parseModbusBlock and the TLV
  decode loop of decodeUplink).

JavaScript numbers are modelled as rationals where fractional values can
occur and as Nat / Int where the source only ever manipulates integers;
bitwise operations on possibly negative 32-bit quantities are modelled
through explicit two-complement arithmetic modulo 2 ^ 32.  JS exceptions
never arise on the modelled paths, so the try/catch wrappers of the
source collapse to straight-line code.  Object writes are modelled as an
append-only list of (key, value) pairs recorded in program order, which
determines the resulting JS object.
-/

set_option maxRecDepth 10000

/-- Value stored in a decoded attribute map: a JS number (as an exact
rational), a JS string, a JS boolean, or the ISO-8601 rendering of a Unix
timestamp (modelled opaquely by the timestamp itself, which determines the
string injectively). -/
inductive JVal where
  | num (q : ℚ)
  | str (s : String)
  | bool (b : Bool)
  | iso (t : Nat)
deriving DecidableEq

/-- Read a byte of the buffer, 0 out of range (in-range on every modelled
path, mirroring guarded JS index accesses). -/
def byteAt (bytes : List Nat) (i : Nat) : Nat :=
  bytes.getD i 0

/-- Source helper toUint16: big-endian unsigned 16-bit value of two bytes. -/
def toUint16 (b1 b2 : Nat) : Nat :=
  (b1 % 256) * 256 + (b2 % 256)

/-- Source helper toInt16: big-endian signed 16-bit value of two bytes. -/
def toInt16 (b1 b2 : Nat) : Int :=
  let v := toUint16 b1 b2
  if 32768 ≤ v then (v : Int) - 65536 else (v : Int)

/-- Source helper readUint16BE. -/
def readUint16BE (bytes : List Nat) (i : Nat) : Nat :=
  toUint16 (byteAt bytes i) (byteAt bytes (i + 1))

/-- Source helper readInt16BE. -/
def readInt16BE (bytes : List Nat) (i : Nat) : Int :=
  toInt16 (byteAt bytes i) (byteAt bytes (i + 1))

/-- Source helper readUint32BE. -/
def readUint32BE (bytes : List Nat) (i : Nat) : Nat :=
  (byteAt bytes i % 256) * 16777216 + (byteAt bytes (i + 1) % 256) * 65536 +
    (byteAt bytes (i + 2) % 256) * 256 + byteAt bytes (i + 3) % 256

/-- Lowercase hexadecimal rendering of a Nat, as produced by the JS
expression n.toString(16). -/
def hexStr (n : Nat) : String :=
  String.mk (Nat.toDigits 16 n)

/-- High byte of a nonnegative 16-bit quantity, JS (n >> 8) & 0xFF. -/
def hi8 (n : Nat) : Nat :=
  n / 256 % 256

/-- Low byte of a nonnegative quantity, JS n & 0xFF. -/
def lo8 (n : Nat) : Nat :=
  n % 256

/-- JS (v >> 8) & 0xFF on a possibly negative integer: bits 8..15 of the
32-bit two-complement representation. -/
def hiByteI (v : Int) : Nat :=
  (v.emod 4294967296).toNat / 256 % 256

/-- JS v & 0xFF on a possibly negative integer: the low 8 bits of the
two-complement representation. -/
def loByteI (v : Int) : Nat :=
  (v.emod 256).toNat

namespace Thermostat

/-- One LFSR round of the Modbus CRC-16 accumulator: shift right once and
conditionally xor the polynomial constant 0xA001, exactly the body of the
inner loop of modbusCRC16. -/
def crcStep1 (c : Nat) : Nat :=
  if c % 2 = 1 then (c / 2) ^^^ 0xA001 else c / 2

/-- Iterated LFSR rounds (the inner for loop runs 8 of them per byte). -/
def crcRounds : Nat → Nat → Nat
  | 0, c => c
  | n + 1, c => crcRounds n (crcStep1 c)

/-- Processing of one input byte by modbusCRC16: xor the byte (masked to
8 bits) into the accumulator, then 8 LFSR rounds. -/
def crcByte (c b : Nat) : Nat :=
  crcRounds 8 (c ^^^ (b % 256))

/-- Final accumulator of modbusCRC16 over a byte sequence, starting from
the all-ones initial value 0xFFFF. -/
def crc16 (data : List Nat) : Nat :=
  data.foldl crcByte 0xFFFF

/-- Source function modbusCRC16: returns the two checksum bytes in
little-endian order, low byte first. -/
def modbusCRC16 (data : List Nat) : List Nat :=
  [crc16 data % 256, (crc16 data >>> 8) % 256]

theorem crcStep1_lt {c : Nat} (h : c < 2 ^ 16) : crcStep1 c < 2 ^ 16 := by
  unfold crcStep1
  split
  · exact Nat.xor_lt_two_pow (by omega) (by norm_num)
  · omega

theorem crcStep1_inj {a b : Nat} (ha : a < 2 ^ 16) (hb : b < 2 ^ 16)
    (h : crcStep1 a = crcStep1 b) : a = b := by
  have hxor : ∀ x : Nat, x < 2 ^ 15 → 2 ^ 15 ≤ x ^^^ 0xA001 := by
    intro x hx
    refine Nat.testBit_implies_ge ?_
    rw [Nat.testBit_xor, Nat.testBit_lt_two_pow hx]
    decide
  rcases Nat.mod_two_eq_zero_or_one a with h1 | h1 <;>
    rcases Nat.mod_two_eq_zero_or_one b with h2 | h2 <;>
      simp only [crcStep1, h1, h2, if_true, if_false, one_ne_zero,
        reduceCtorEq, ite_false, ite_true, Nat.zero_ne_one] at h
  · omega
  · have := hxor (b / 2) (by omega)
    omega
  · have := hxor (a / 2) (by omega)
    omega
  · have h3 := congrArg (fun x => x ^^^ 0xA001) h
    simp only [Nat.xor_cancel_right] at h3
    omega

theorem crcRounds_lt : ∀ n c, c < 2 ^ 16 → crcRounds n c < 2 ^ 16 := by
  intro n
  induction n with
  | zero => intro c hc; exact hc
  | succ n ih => intro c hc; exact ih _ (crcStep1_lt hc)

theorem crcRounds_inj : ∀ n a b, a < 2 ^ 16 → b < 2 ^ 16 →
    crcRounds n a = crcRounds n b → a = b := by
  intro n
  induction n with
  | zero => intro a b _ _ h; exact h
  | succ n ih =>
    intro a b ha hb h
    exact crcStep1_inj ha hb (ih _ _ (crcStep1_lt ha) (crcStep1_lt hb) h)

theorem crcByte_lt {c : Nat} (b : Nat) (h : c < 2 ^ 16) : crcByte c b < 2 ^ 16 :=
  crcRounds_lt 8 _ (Nat.xor_lt_two_pow h (by omega))

theorem crcByte_inj_left {c1 c2 b : Nat} (h1 : c1 < 2 ^ 16) (h2 : c2 < 2 ^ 16)
    (h : crcByte c1 b = crcByte c2 b) : c1 = c2 := by
  have hb : b % 256 < 2 ^ 16 := by omega
  have hx := crcRounds_inj 8 _ _ (Nat.xor_lt_two_pow h1 hb) (Nat.xor_lt_two_pow h2 hb) h
  have h3 := congrArg (fun x => x ^^^ (b % 256)) hx
  simpa only [Nat.xor_cancel_right] using h3

theorem crcByte_inj_right {c b1 b2 : Nat} (hc : c < 2 ^ 16)
    (hb1 : b1 < 256) (hb2 : b2 < 256)
    (h : crcByte c b1 = crcByte c b2) : b1 = b2 := by
  have hx := crcRounds_inj 8 _ _
    (Nat.xor_lt_two_pow hc (by omega)) (Nat.xor_lt_two_pow hc (by omega)) h
  have h3 := congrArg (fun x => c ^^^ x) hx
  simp only [Nat.xor_cancel_left] at h3
  rwa [Nat.mod_eq_of_lt hb1, Nat.mod_eq_of_lt hb2] at h3

theorem foldl_crcByte_lt : ∀ (l : List Nat) (c : Nat), c < 2 ^ 16 →
    l.foldl crcByte c < 2 ^ 16 := by
  intro l
  induction l with
  | nil => intro c hc; exact hc
  | cons a t ih => intro c hc; exact ih _ (crcByte_lt a hc)

theorem foldl_crcByte_inj : ∀ (l : List Nat) (c1 c2 : Nat), c1 < 2 ^ 16 →
    c2 < 2 ^ 16 → l.foldl crcByte c1 = l.foldl crcByte c2 → c1 = c2 := by
  intro l
  induction l with
  | nil => intro c1 c2 _ _ h; exact h
  | cons a t ih =>
    intro c1 c2 h1 h2 h
    exact crcByte_inj_left h1 h2 (ih _ _ (crcByte_lt a h1) (crcByte_lt a h2) h)

theorem foldl_crcByte_set_ne : ∀ (l : List Nat) (i b c : Nat), c < 2 ^ 16 →
    i < l.length → l.getD i 0 < 256 → b < 256 → b ≠ l.getD i 0 →
    (l.set i b).foldl crcByte c ≠ l.foldl crcByte c := by
  intro l
  induction l with
  | nil => intro i b c _ hi; simp at hi
  | cons a t ih =>
    intro i b c hc hi hv hb hne
    cases i with
    | zero =>
      simp only [List.set_cons_zero, List.foldl_cons]
      intro h
      have := foldl_crcByte_inj t _ _ (crcByte_lt b hc) (crcByte_lt a hc) h
      exact hne (crcByte_inj_right hc hb (by simpa using hv) this)
    | succ i =>
      simp only [List.set_cons_succ, List.foldl_cons]
      exact ih i b (crcByte c a) (crcByte_lt a hc) (by simpa using hi)
        (by simpa using hv) hb (by simpa using hne)

/-- C8: the checksum function is deterministic, and replacing any single
byte of the input (by a different byte value) changes both the 16-bit
accumulator and the returned pair of checksum bytes. -/
theorem modbusCRC16_deterministic_and_byte_sensitive :
    (∀ l1 l2 : List Nat, l1 = l2 → modbusCRC16 l1 = modbusCRC16 l2) ∧
    (∀ (l : List Nat) (i b : Nat), i < l.length → l.getD i 0 < 256 →
      b < 256 → b ≠ l.getD i 0 →
      crc16 (l.set i b) ≠ crc16 l ∧ modbusCRC16 (l.set i b) ≠ modbusCRC16 l) := by
  constructor
  · intro l1 l2 h
    rw [h]
  · intro l i b hi hv hb hne
    have hcrc : crc16 (l.set i b) ≠ crc16 l :=
      foldl_crcByte_set_ne l i b 0xFFFF (by norm_num) hi hv hb hne
    refine ⟨hcrc, ?_⟩
    intro h
    apply hcrc
    have h1 : crc16 (l.set i b) % 256 = crc16 l % 256 := by
      simpa [modbusCRC16] using congrArg (fun x => x.getD 0 0) h
    have h2 : crc16 (l.set i b) >>> 8 % 256 = crc16 l >>> 8 % 256 := by
      simpa [modbusCRC16] using congrArg (fun x => x.getD 1 0) h
    have hb1 : crc16 (l.set i b) < 2 ^ 16 := foldl_crcByte_lt _ _ (by norm_num)
    have hb2 : crc16 l < 2 ^ 16 := foldl_crcByte_lt _ _ (by norm_num)
    rw [Nat.shiftRight_eq_div_pow, Nat.shiftRight_eq_div_pow] at h2
    omega

/-- Witness for C8 at a concrete input: changing the middle byte of
[1, 2, 3] to 7 changes the checksum. -/
theorem modbusCRC16_sensitive_witness :
    modbusCRC16 [1, 2] = modbusCRC16 [1, 2] ∧
    (crc16 ([1, 2, 3].set 1 7) ≠ crc16 [1, 2, 3] ∧
      modbusCRC16 ([1, 2, 3].set 1 7) ≠ modbusCRC16 [1, 2, 3]) :=
  ⟨modbusCRC16_deterministic_and_byte_sensitive.1 [1, 2] [1, 2] rfl,
    modbusCRC16_deterministic_and_byte_sensitive.2 [1, 2, 3] 1 7
      (by decide) (by decide) (by decide) (by decide)⟩

end Thermostat

namespace Unified

/-- Unsigned 16-bit cell of a register block starting at byte offset j. -/
def cellU (m : List Nat) (j : Nat) : Nat :=
  toUint16 (byteAt m j) (byteAt m (j + 1))

/-- Signed 16-bit cell of a register block starting at byte offset j. -/
def cellS (m : List Nat) (j : Nat) : Int :=
  toInt16 (byteAt m j) (byteAt m (j + 1))

/-- Attribute writes of one cell of the remote-control status block of
parseModbusBlock (register space 0xF000..0xF004, value taken from the low
byte); registers outside the listed range are silently skipped. -/
def interpSpecial (register valLow : Nat) : List (String × JVal) :=
  if register = 0xF000 then [("powerState", JVal.num valLow)]
  else if register = 0xF001 then [("keyLockState", JVal.num valLow)]
  else if register = 0xF002 then [("rebootState", JVal.num valLow)]
  else if register = 0xF003 then [("clearState", JVal.num valLow)]
  else if register = 0xF004 then [("signalStrength", JVal.num valLow)]
  else []

/-- Attribute writes of one cell of the normal status block of
parseModbusBlock (registers 0x0000..0x0008); the bit tests of the status
register are rendered arithmetically (n &&& 1 as n % 2, n &&& 2 as
n / 2 % 2, n &&& 4 as n / 4 % 2); registers above 0x0008 are silently
skipped. -/
def interpNormal (register valU : Nat) (valS : Int) : List (String × JVal) :=
  if register = 0 then
    [("hardwareVersion", JVal.num (hi8 valU)), ("softwareVersion", JVal.num (lo8 valU))]
  else if register = 1 then
    [("powerState", JVal.num (if valU % 256 % 2 = 0 then 1 else 0)),
      ("keyLockState", JVal.num (if valU % 256 / 2 % 2 = 1 then 1 else 0)),
      ("valveState", JVal.num (if valU % 256 / 4 % 2 = 1 then 0 else 1))]
  else if register = 2 then [("temperature", JVal.num ((valS : ℚ) / 100))]
  else if register = 3 then [("humidity", JVal.num ((valU : ℚ) / 100))]
  else if register = 4 then [("setTemperature", JVal.num ((valS : ℚ) / 100))]
  else if register = 5 then [("workMode", JVal.num (lo8 valU))]
  else if register = 6 then [("fanSpeed", JVal.num (lo8 valU))]
  else if register = 7 then [("cumulativeOnTime", JVal.num (valU * 10))]
  else if register = 8 then [("cumulativeValveOpenTime", JVal.num (valU * 10))]
  else []

/-- While loop of the remote-control branch of parseModbusBlock: one cell
per iteration, byte offset advancing by 2 and register address by 1, as
long as two bytes remain.  The fuel argument only bounds the recursion and
is always supplied large enough. -/
def mbLoopSpecial (m : List Nat) : Nat → Nat → Nat → List (String × JVal)
  | 0, _, _ => []
  | fuel + 1, offset, register =>
    if offset + 1 < m.length then
      interpSpecial register (cellU m offset % 256) ++
        mbLoopSpecial m fuel (offset + 2) (register + 1)
    else []

/-- While loop of the normal-status branch of parseModbusBlock. -/
def mbLoopNormal (m : List Nat) : Nat → Nat → Nat → List (String × JVal)
  | 0, _, _ => []
  | fuel + 1, offset, register =>
    if offset + 1 < m.length then
      interpNormal register (cellU m offset) (cellS m offset) ++
        mbLoopNormal m fuel (offset + 2) (register + 1)
    else []

/-- Source function parseModbusBlock of the unified codec: blocks shorter
than 2 bytes are rejected, the first 16-bit cell selects the addressing
mode (the reserved sentinel 0xF000 selects the remote-control space), and
the remaining cells are decoded by the corresponding loop. -/
def parseModbusBlock (modBytes : List Nat) : List (String × JVal) :=
  if modBytes.length < 2 then []
  else if cellU modBytes 0 = 0xF000 then
    mbLoopSpecial modBytes modBytes.length 2 0xF000
  else
    mbLoopNormal modBytes modBytes.length 2 0

theorem byteAt_append {m : List Nat} (l' : List Nat) {i : Nat} (h : i < m.length) :
    byteAt (m ++ l') i = byteAt m i :=
  List.getD_append m l' 0 i h

theorem mbLoopSpecial_eq (m : List Nat) : ∀ fuel offset register,
    m.length ≤ offset + 2 * fuel →
    mbLoopSpecial m fuel offset register =
      ((List.range ((m.length - offset) / 2)).map
        (fun k => interpSpecial (register + k) (cellU m (offset + 2 * k) % 256))).flatten := by
  intro fuel
  induction fuel with
  | zero =>
    intro offset register h
    have : (m.length - offset) / 2 = 0 := by omega
    simp [mbLoopSpecial, this]
  | succ fuel ih =>
    intro offset register h
    by_cases hc : offset + 1 < m.length
    · have hcount : (m.length - offset) / 2 = (m.length - (offset + 2)) / 2 + 1 := by omega
      rw [mbLoopSpecial, if_pos hc, hcount, List.range_succ_eq_map]
      simp only [List.map_cons, List.map_map, List.flatten_cons, Nat.add_zero, Nat.mul_zero]
      congr 1
      rw [ih (offset + 2) (register + 1) (by omega)]
      congr 1
      apply List.map_congr_left
      intro k _
      simp only [Function.comp]
      have h1 : register + Nat.succ k = register + 1 + k := by omega
      have h2 : offset + 2 * Nat.succ k = offset + 2 + 2 * k := by omega
      rw [h1, h2]
    · have : (m.length - offset) / 2 = 0 := by omega
      rw [mbLoopSpecial, if_neg hc]
      simp [this]

theorem mbLoopNormal_eq (m : List Nat) : ∀ fuel offset register,
    m.length ≤ offset + 2 * fuel →
    mbLoopNormal m fuel offset register =
      ((List.range ((m.length - offset) / 2)).map
        (fun k => interpNormal (register + k) (cellU m (offset + 2 * k)) (cellS m (offset + 2 * k)))).flatten := by
  intro fuel
  induction fuel with
  | zero =>
    intro offset register h
    have : (m.length - offset) / 2 = 0 := by omega
    simp [mbLoopNormal, this]
  | succ fuel ih =>
    intro offset register h
    by_cases hc : offset + 1 < m.length
    · have hcount : (m.length - offset) / 2 = (m.length - (offset + 2)) / 2 + 1 := by omega
      rw [mbLoopNormal, if_pos hc, hcount, List.range_succ_eq_map]
      simp only [List.map_cons, List.map_map, List.flatten_cons, Nat.add_zero, Nat.mul_zero]
      congr 1
      rw [ih (offset + 2) (register + 1) (by omega)]
      congr 1
      apply List.map_congr_left
      intro k _
      simp only [Function.comp]
      have h1 : register + Nat.succ k = register + 1 + k := by omega
      have h2 : offset + 2 * Nat.succ k = offset + 2 + 2 * k := by omega
      rw [h1, h2]
    · have : (m.length - offset) / 2 = 0 := by omega
      rw [mbLoopNormal, if_neg hc]
      simp [this]

/-- Cell-indexed characterization of parseModbusBlock, shared by the
claims about the register sub-decoder. -/
theorem parseModbusBlock_cells (m : List Nat) (h : 2 ≤ m.length) :
    parseModbusBlock m =
      if cellU m 0 = 0xF000 then
        ((List.range ((m.length - 2) / 2)).map
          (fun k => interpSpecial (0xF000 + k) (cellU m (2 + 2 * k) % 256))).flatten
      else
        ((List.range ((m.length - 2) / 2)).map
          (fun k => interpNormal (0 + k) (cellU m (2 + 2 * k)) (cellS m (2 + 2 * k)))).flatten := by
  rw [parseModbusBlock, if_neg (by omega)]
  split
  · exact mbLoopSpecial_eq m m.length 2 0xF000 (by omega)
  · exact mbLoopNormal_eq m m.length 2 0 (by omega)

/-- C6: for every register block of at least 2 bytes the sub-decoder reads
the first two bytes as a big-endian unsigned 16-bit value and selects the
addressing mode from it: the reserved sentinel 0xF000 puts the remaining
cells at addresses 0xF000, 0xF001, ..., any other value puts them at
addresses 0x0000, 0x0001, ..., the address advancing by exactly one per
2-byte cell. -/
theorem parseModbusBlock_addressing (m : List Nat) (h : 2 ≤ m.length) :
    parseModbusBlock m =
      if cellU m 0 = 0xF000 then
        ((List.range ((m.length - 2) / 2)).map
          (fun k => interpSpecial (0xF000 + k) (cellU m (2 + 2 * k) % 256))).flatten
      else
        ((List.range ((m.length - 2) / 2)).map
          (fun k => interpNormal (0 + k) (cellU m (2 + 2 * k)) (cellS m (2 + 2 * k)))).flatten :=
  parseModbusBlock_cells m h

/-- Witness for C6 at a concrete block: sentinel header 0xF000 followed by
one cell of value 1, decoded at register 0xF000. -/
theorem parseModbusBlock_addressing_witness :
    parseModbusBlock [0xF0, 0, 0, 1] =
      [("powerState", JVal.num ((1 : Nat) : ℚ))] ∧
      cellU [0xF0, 0, 0, 1] 0 = 0xF000 := by
  constructor
  · rw [parseModbusBlock_addressing [0xF0, 0, 0, 1] (by norm_num)]
    rfl
  · rfl

/-- C7: the register loop consumes exactly 2 bytes per cell and stops as
soon as fewer than 2 bytes remain, so appending a single trailing byte to
a block of even length changes nothing: the odd trailing byte is never
read. -/
theorem parseModbusBlock_ignores_trailing_odd_byte (m : List Nat) (b : Nat)
    (hpar : m.length % 2 = 0) :
    parseModbusBlock (m ++ [b]) = parseModbusBlock m := by
  by_cases hlen : m.length < 2
  · have hm : m = [] := by
      cases m with
      | nil => rfl
      | cons a t => simp at hlen hpar; omega
    subst hm
    rfl
  · push_neg at hlen
    have hlen2 : 2 ≤ (m ++ [b]).length := by simp; omega
    rw [parseModbusBlock_cells m hlen, parseModbusBlock_cells (m ++ [b]) hlen2]
    have hcell0 : cellU (m ++ [b]) 0 = cellU m 0 := by
      unfold cellU
      rw [byteAt_append [b] (by omega), byteAt_append [b] (by omega)]
    have hcount : ((m ++ [b]).length - 2) / 2 = (m.length - 2) / 2 := by
      simp only [List.length_append, List.length_cons, List.length_nil]
      omega
    rw [hcell0, hcount]
    split
    · congr 1
      apply List.map_congr_left
      intro k hk
      simp only [List.mem_range] at hk
      have h1 : 2 + 2 * k < m.length := by omega
      have h2 : 2 + 2 * k + 1 < m.length := by omega
      unfold cellU
      rw [byteAt_append [b] h1, byteAt_append [b] h2]
    · congr 1
      apply List.map_congr_left
      intro k hk
      simp only [List.mem_range] at hk
      have h1 : 2 + 2 * k < m.length := by omega
      have h2 : 2 + 2 * k + 1 < m.length := by omega
      unfold cellU cellS
      rw [byteAt_append [b] h1, byteAt_append [b] h2]

/-- Witness for C7 at a concrete block: appending a trailing byte to the
2-byte block [0, 1] changes nothing. -/
theorem parseModbusBlock_ignores_trailing_odd_byte_witness :
    parseModbusBlock ([0, 1] ++ [85]) = parseModbusBlock [0, 1] :=
  parseModbusBlock_ignores_trailing_odd_byte [0, 1] 85 rfl

/-- C10: a register block shorter than 4 bytes contains no complete cell
after the 2-byte addressing word, and the sub-decoder writes no attribute
at all. -/
theorem parseModbusBlock_short_block_writes_nothing (m : List Nat)
    (h : m.length < 4) : parseModbusBlock m = [] := by
  by_cases hlen : m.length < 2
  · rw [parseModbusBlock, if_pos hlen]
  · push_neg at hlen
    rw [parseModbusBlock_cells m hlen]
    have : (m.length - 2) / 2 = 0 := by omega
    rw [this]
    split <;> rfl

/-- Witness for C10 at a concrete 3-byte block. -/
theorem parseModbusBlock_short_block_writes_nothing_witness :
    parseModbusBlock [0xF0, 0, 7] = [] :=
  parseModbusBlock_short_block_writes_nothing [0xF0, 0, 7] (by norm_num)

end Unified

namespace Unified

/-- Source table MODEL_MAP of the unified codec: model code byte to model
name string. -/
def modelMap : Nat → Option String
  | 0x01 => some "AN-301"
  | 0x02 => some "AN-302"
  | 0x03 => some "AN-303"
  | 0x04 => some "AN-304"
  | 0x05 => some "AN-102D"
  | 0x07 => some "M100C"
  | 0x08 => some "M101A"
  | 0x09 => some "M102A"
  | 0x0a => some "M300C"
  | 0x0b => some "AN-103A"
  | 0x0c => some "AN-101"
  | 0x0d => some "AN-102C"
  | 0x0e => some "AN-106"
  | 0x0f => some "AN-202A"
  | 0x10 => some "AN-203A"
  | 0x11 => some "AN-204A"
  | 0x12 => some "EFM02"
  | 0x13 => some "kongqihezi"
  | 0x14 => some "lajitong"
  | 0x15 => some "GPS"
  | 0x16 => some "AN-305D"
  | 0x17 => some "EL300A"
  | 0x18 => some "CM101"
  | 0x19 => some "AN-217"
  | 0x1a => some "kongqikaiguan"
  | 0x1b => some "JTY-GD-H605"
  | 0x1c => some "AN-219"
  | 0x1d => some "WN_SJSYOA"
  | 0x1e => some "xiongpai"
  | 0x20 => some "AN-220"
  | 0x21 => some "IA100A"
  | 0x22 => some "AN-214"
  | 0x23 => some "AN-215"
  | 0x24 => some "AN-305A"
  | 0x25 => some "AN-305B"
  | 0x26 => some "AN-305C"
  | 0x27 => some "AN-310"
  | 0x29 => some "FP100A"
  | 0x2a => some "SENSOR_BOX_AGRIC"
  | 0x2b => some "SENSOR_BOX_MODBUS"
  | 0x2c => some "AN-207"
  | 0x2d => some "AN-208"
  | 0x2e => some "AN-108B"
  | 0x2f => some "AN-122"
  | 0x30 => some "AN-201C"
  | 0x31 => some "CU300A"
  | 0x32 => some "JTY-GD-H605"
  | 0x33 => some "Ci-TC-01"
  | 0x34 => some "AN-211A"
  | 0x35 => some "AN-307"
  | 0x3b => some "M101A-AN-113"
  | 0x3c => some "M300C-AN-113"
  | 0x3d => some "Q9_AN204C"
  | 0x3e => some "AJ761"
  | 0x3f => some "AN-103C"
  | 0x40 => some "D-BOX"
  | 0x41 => some "AN-223"
  | 0x42 => some "AN_JTY_GD_H386"
  | 0x43 => some "JC-RS801"
  | 0x44 => some "AN-306"
  | 0x45 => some "AN-308"
  | 0x46 => some "W8004"
  | 0x47 => some "DS803"
  | 0x48 => some "DS-501"
  | 0x49 => some "CU600"
  | 0x4a => some "CU601"
  | 0x4b => some "CU606"
  | 0x4e => some "AN-224"
  | 0x4f => some "EX-201"
  | 0x50 => some "M200C"
  | 0x51 => some "JTY-AN-503A"
  | 0x55 => some "EX-205"
  | _ => none

/-- Scan of readStringNullTerm, with explicit fuel (always called with
enough fuel to reach the terminator or the end of the buffer): collects
characters until a zero byte or the end, and returns the next cursor,
always one past the scanned region. -/
def readStrAux (bytes : List Nat) : Nat → Nat → List Char × Nat
  | 0, i => ([], i + 1)
  | fuel + 1, i =>
    if i < bytes.length then
      if byteAt bytes i = 0 then ([], i + 1)
      else
        let r := readStrAux bytes fuel (i + 1)
        (Char.ofNat (byteAt bytes i % 256) :: r.1, r.2)
    else ([], i + 1)

/-- Source helper readStringNullTerm of the unified codec: the string up
to a zero byte or the end of the buffer, and the index just past it. -/
def readStringNullTerm (bytes : List Nat) (i : Nat) : String × Nat :=
  let r := readStrAux bytes (bytes.length - i) i
  (String.mk r.1, r.2)

/-- Mutable state of one decodeUplink call while the tag loop runs: the
attribute writes done so far (in program order) and the warnings list. -/
structure DecodeState where
  data : List (String × JVal)
  warnings : List String
deriving DecidableEq

def pushWarn (st : DecodeState) (w : String) : DecodeState :=
  { st with warnings := st.warnings ++ [w] }

def pushData (st : DecodeState) (kvs : List (String × JVal)) : DecodeState :=
  { st with data := st.data ++ kvs }

/-- Warning text of the default branch of the tag switch, naming the
unknown tag in hexadecimal and its position. -/
def unknownWarning (t idx : Nat) : String :=
  "Unknown type 0x" ++ hexStr t ++ " at position " ++ toString idx ++ ", stopping parse"

/-- Tags registered in the switch of the decodeUplink tag loop. -/
def knownTag (t : Nat) : Bool :=
  decide (t = 0x01 ∨ t = 0x02 ∨ t = 0x03 ∨ t = 0x04 ∨ t = 0x05 ∨ t = 0x06 ∨
    t = 0x07 ∨ t = 0x08 ∨ t = 0x09 ∨ t = 0x0a ∨ t = 0x0b ∨ t = 0x0c ∨
    t = 0x0d ∨ t = 0x0e ∨ t = 0x0f ∨ t = 0x10 ∨ t = 0x11 ∨ t = 0x12 ∨
    t = 0x13 ∨ t = 0x14 ∨ t = 0x15 ∨ t = 0x18 ∨ t = 0x22 ∨ t = 0x77 ∨
    t = 0x78 ∨ t = 0x79 ∨ t = 0x7d ∨ t = 0x80 ∨ t = 0x94 ∨ t = 0x95 ∨
    t = 0x96 ∨ t = 0x97 ∨ t = 0x98 ∨ t = 0x99 ∨ t = 0x9a)

/-- Body of one iteration of the decodeUplink tag loop, for the tag byte t
read at position idx (the cursor has already advanced past the tag byte,
so value bytes start at idx + 1).  Returns the next cursor and the new
state.  Branches appear in source switch order; the masks of the timer
status bitfield are rendered arithmetically. -/
def stepTag (bytes : List Nat) (idx : Nat) (t : Nat) (st : DecodeState) : Nat × DecodeState :=
  if t = 0x01 then
    if bytes.length ≤ idx + 1 then (idx + 1, pushWarn st "Truncated model field")
    else (idx + 2, pushData st [("model", JVal.str
      ((modelMap (byteAt bytes (idx + 1))).getD
        ("unknown_0x" ++ hexStr (byteAt bytes (idx + 1)))))])
  else if t = 0x02 then
    if bytes.length < idx + 5 then (idx + 1, pushWarn st "Truncated downlink count")
    else (idx + 5, pushData st [("downlinkCount", JVal.num (readUint32BE bytes (idx + 1)))])
  else if t = 0x03 then
    if bytes.length ≤ idx + 1 then (idx + 1, pushWarn st "Truncated tamper event")
    else (idx + 2, pushData st [("tamperEvent", JVal.num (byteAt bytes (idx + 1)))])
  else if t = 0x04 then
    if bytes.length < idx + 3 then (idx + 1, pushWarn st "Truncated battery voltage")
    else (idx + 3, pushData st
      [("batteryVoltage", JVal.num ((readUint16BE bytes (idx + 1) : ℚ) / 1000))])
  else if t = 0x05 then
    if bytes.length ≤ idx + 1 then (idx + 1, pushWarn st "Truncated battery event")
    else (idx + 2, pushData st [("batteryVoltageEvent", JVal.num (byteAt bytes (idx + 1)))])
  else if t = 0x06 then
    ((readStringNullTerm bytes (idx + 1)).2,
      pushData st [("bootVersion", JVal.str (readStringNullTerm bytes (idx + 1)).1)])
  else if t = 0x07 then
    ((readStringNullTerm bytes (idx + 1)).2,
      pushData st [("mainVersion", JVal.str (readStringNullTerm bytes (idx + 1)).1)])
  else if t = 0x08 then
    ((readStringNullTerm bytes (idx + 1)).2,
      pushData st [("appVersion", JVal.str (readStringNullTerm bytes (idx + 1)).1)])
  else if t = 0x09 then
    ((readStringNullTerm bytes (idx + 1)).2,
      pushData st [("hardwareVersion", JVal.str (readStringNullTerm bytes (idx + 1)).1)])
  else if t = 0x0a then
    if bytes.length < idx + 5 then (idx + 1, pushWarn st "Truncated P2P update frequency")
    else (idx + 5, pushData st [("p2pUpdateFrequency", JVal.num (readUint32BE bytes (idx + 1)))])
  else if t = 0x0b then
    if bytes.length < idx + 5 then (idx + 1, pushWarn st "Truncated P2P config frequency")
    else (idx + 5, pushData st [("p2pConfigFrequency", JVal.num (readUint32BE bytes (idx + 1)))])
  else if t = 0x0c then
    ((readStringNullTerm bytes (idx + 1)).2,
      pushData st [("radioChip", JVal.str (readStringNullTerm bytes (idx + 1)).1)])
  else if t = 0x0d then
    ((readStringNullTerm bytes (idx + 1)).2,
      pushData st [("resetCause", JVal.str (readStringNullTerm bytes (idx + 1)).1)])
  else if t = 0x0e then
    ((readStringNullTerm bytes (idx + 1)).2,
      pushData st [("lorawanRegion", JVal.str (readStringNullTerm bytes (idx + 1)).1)])
  else if t = 0x0f then
    ((readStringNullTerm bytes (idx + 1)).2,
      pushData st [("atResponse", JVal.str (readStringNullTerm bytes (idx + 1)).1)])
  else if t = 0x10 then
    if bytes.length < idx + 3 then (idx + 1, pushWarn st "Truncated temperature")
    else (idx + 3, pushData st
      [("temperature", JVal.num ((readInt16BE bytes (idx + 1) : ℚ) / 100))])
  else if t = 0x11 then
    if bytes.length ≤ idx + 1 then (idx + 1, pushWarn st "Truncated temperature event")
    else (idx + 2, pushData st [("temperatureEvent", JVal.num (byteAt bytes (idx + 1)))])
  else if t = 0x12 then
    if bytes.length < idx + 3 then (idx + 1, pushWarn st "Truncated humidity")
    else (idx + 3, pushData st
      [("humidity", JVal.num ((readUint16BE bytes (idx + 1) : ℚ) / 10))])
  else if t = 0x13 then
    if bytes.length ≤ idx + 1 then (idx + 1, pushWarn st "Truncated humidity event")
    else (idx + 2, pushData st [("humidityEvent", JVal.num (byteAt bytes (idx + 1)))])
  else if t = 0x14 then
    if bytes.length ≤ idx + 1 then (idx + 1, pushWarn st "Truncated SOS event")
    else (idx + 2, pushData st [("sosEvent", JVal.num (byteAt bytes (idx + 1)))])
  else if t = 0x15 then
    if bytes.length < idx + 3 then (idx + 1, pushWarn st "Truncated gas concentration")
    else (idx + 3, pushData st [("gasConcentration", JVal.num (readUint16BE bytes (idx + 1)))])
  else if t = 0x18 then
    if bytes.length ≤ idx + 1 then (idx + 1, pushWarn st "Truncated door state")
    else (idx + 2, pushData st [("doorState", JVal.num (byteAt bytes (idx + 1)))])
  else if t = 0x22 then
    if bytes.length ≤ idx + 1 then (idx + 1, pushWarn st "Truncated relay state")
    else (idx + 2, pushData st [("powerState", JVal.num (byteAt bytes (idx + 1)))])
  else if t = 0x77 then
    if bytes.length ≤ idx + 1 then (idx + 1, pushWarn st "Truncated tamper state")
    else (idx + 2, pushData st [("tamper", JVal.num (byteAt bytes (idx + 1)))])
  else if t = 0x78 then
    if bytes.length < idx + 5 then (idx + 1, pushWarn st "Truncated heartbeat interval")
    else (idx + 5, pushData st [("heartbeatInterval", JVal.num (readUint32BE bytes (idx + 1)))])
  else if t = 0x79 then
    if bytes.length < idx + 5 then (idx + 1, pushWarn st "Truncated timestamp")
    else if readUint32BE bytes (idx + 1) ≠ 0 then
      (idx + 5, pushData st
        [("timestamp", JVal.num (readUint32BE bytes (idx + 1))),
          ("localTime", JVal.iso (readUint32BE bytes (idx + 1)))])
    else (idx + 5, st)
  else if t = 0x7d then
    if bytes.length ≤ idx + 1 then (idx + 1, pushWarn st "Truncated battery voltage state")
    else (idx + 2, pushData st [("batteryVoltageState", JVal.num (byteAt bytes (idx + 1)))])
  else if t = 0x80 then
    if bytes.length < idx + 5 then (idx + 1, pushWarn st "Truncated timer status")
    else (idx + 5, pushData st
      [("timerStatus", JVal.num (readUint32BE bytes (idx + 1))),
        ("timerCloseEnabled", JVal.bool (readUint32BE bytes (idx + 1) % 2 == 1)),
        ("timerOpenEnabled", JVal.bool (readUint32BE bytes (idx + 1) / 2 % 2 == 1)),
        ("timerLockEnabled", JVal.bool (readUint32BE bytes (idx + 1) / 1073741824 % 2 == 1)),
        ("timerUnlockEnabled", JVal.bool (readUint32BE bytes (idx + 1) / 2147483648 % 2 == 1))])
  else if t = 0x94 then
    if bytes.length ≤ idx + 1 then (idx + 1, pushWarn st "Truncated RS485 address")
    else (idx + 2, pushData st [("rs485Addr", JVal.num (byteAt bytes (idx + 1)))])
  else if t = 0x95 then
    if bytes.length ≤ idx + 1 then (idx + 1, pushWarn st "Missing Modbus data length")
    else
      (min (idx + 2 + byteAt bytes (idx + 1)) bytes.length,
        pushData
          (if bytes.length < idx + 2 + byteAt bytes (idx + 1) then
            pushWarn st "Modbus block exceeds payload, trimming"
          else st)
          (parseModbusBlock
            ((bytes.take (min (idx + 2 + byteAt bytes (idx + 1)) bytes.length)).drop (idx + 2))))
  else if t = 0x96 then
    if bytes.length ≤ idx + 1 then (idx + 1, pushWarn st "Truncated lock state")
    else (idx + 2, pushData st [("lockState", JVal.num (byteAt bytes (idx + 1)))])
  else if t = 0x97 then
    if bytes.length < idx + 3 then (idx + 1, pushWarn st "Truncated voltage")
    else (idx + 3, pushData st
      [("voltage", JVal.num ((readUint16BE bytes (idx + 1) : ℚ) / 10))])
  else if t = 0x98 then
    if bytes.length < idx + 3 then (idx + 1, pushWarn st "Truncated current")
    else (idx + 3, pushData st
      [("current", JVal.num ((readUint16BE bytes (idx + 1) : ℚ) / 100))])
  else if t = 0x99 then
    if bytes.length < idx + 3 then (idx + 1, pushWarn st "Truncated power")
    else (idx + 3, pushData st
      [("activePower", JVal.num ((readInt16BE bytes (idx + 1) : ℚ) / 100))])
  else if t = 0x9a then
    if bytes.length < idx + 5 then (idx + 1, pushWarn st "Truncated energy")
    else (idx + 5, pushData st
      [("energy", JVal.num ((readUint32BE bytes (idx + 1) : ℚ) / 100))])
  else
    (bytes.length, pushWarn st (unknownWarning t idx))

/-- One iteration of the decodeUplink tag loop at cursor idx: read the tag
byte and dispatch. -/
def decodeStep (bytes : List Nat) (idx : Nat) (st : DecodeState) : Nat × DecodeState :=
  stepTag bytes idx (byteAt bytes idx) st

/-- The decodeUplink tag loop (while idx < bytes.length), with explicit
fuel; decodeUplink supplies fuel bytes.length, which is always enough
because every iteration advances the cursor. -/
def decodeLoop (bytes : List Nat) : Nat → Nat → DecodeState → DecodeState
  | 0, _, st => st
  | fuel + 1, idx, st =>
    if idx < bytes.length then
      decodeLoop bytes fuel (decodeStep bytes idx st).1 (decodeStep bytes idx st).2
    else st

/-- Result triple of decodeUplink. -/
structure DecodeResult where
  data : List (String × JVal)
  errors : List String
  warnings : List String
deriving DecidableEq

/-- Source function decodeUplink of the unified codec (src/unnamed/part_004):
fPort validation, minimum-length check, then the tag loop from offset 1.
The try/catch of the source is omitted because no modelled operation can
throw, so the errors list stays empty on the loop path. -/
def decodeUplink (bytes : List Nat) (fPort : Nat) : DecodeResult :=
  let warnings0 : List String :=
    if fPort ≠ 210 then
      ["Expected fPort 210, got " ++ toString fPort ++ " - decoder may not work correctly"]
    else []
  if fPort ≠ 210 ∧ fPort ≠ 2 ∧ fPort ≠ 220 then
    { data := [], errors := ["Unsupported fPort: " ++ toString fPort], warnings := warnings0 }
  else if bytes.length < 2 then
    { data := [], errors := ["Payload too short (minimum 2 bytes required)"], warnings := warnings0 }
  else
    { data := (decodeLoop bytes bytes.length 1 ⟨[], warnings0⟩).data,
      errors := [],
      warnings := (decodeLoop bytes bytes.length 1 ⟨[], warnings0⟩).warnings }

/-- Configurations of the tag loop: Reaches bytes i st j st2 holds when the
loop, started at cursor i in state st, arrives after some number of
iterations at cursor j in state st2. -/
inductive Reaches (bytes : List Nat) : Nat → DecodeState → Nat → DecodeState → Prop where
  | refl (i : Nat) (st : DecodeState) : Reaches bytes i st i st
  | step {i j k : Nat} {st st1 st2 : DecodeState} (h : i < bytes.length)
      (hs : decodeStep bytes i st = (j, st1)) (hr : Reaches bytes j st1 k st2) :
      Reaches bytes i st k st2

end Unified

namespace Unified

theorem readStrAux_increase (bytes : List Nat) : ∀ fuel i, i < (readStrAux bytes fuel i).2 := by
  intro fuel
  induction fuel with
  | zero => intro i; simp [readStrAux]
  | succ fuel ih =>
    intro i
    unfold readStrAux
    split_ifs
    · simp
    · have := ih (i + 1)
      dsimp only
      omega
    · simp

theorem readStringNullTerm_increase (bytes : List Nat) (i : Nat) :
    i < (readStringNullTerm bytes i).2 := by
  have := readStrAux_increase bytes (bytes.length - i) i
  simpa [readStringNullTerm] using this

theorem stepTag_unknown (bytes : List Nat) (idx t : Nat) (st : DecodeState)
    (h : knownTag t = false) :
    stepTag bytes idx t st = (bytes.length, pushWarn st (unknownWarning t idx)) := by
  simp only [knownTag, decide_eq_false_iff_not] at h
  push_neg at h
  obtain ⟨h1, h2, h3, h4, h5, h6, h7, h8, h9, h10, h11, h12, h13, h14, h15, h16, h17,
    h18, h19, h20, h21, h22, h23, h24, h25, h26, h27, h28, h29, h30, h31, h32, h33,
    h34, h35⟩ := h
  unfold stepTag
  rw [if_neg h1, if_neg h2, if_neg h3, if_neg h4, if_neg h5, if_neg h6, if_neg h7,
    if_neg h8, if_neg h9, if_neg h10, if_neg h11, if_neg h12, if_neg h13, if_neg h14,
    if_neg h15, if_neg h16, if_neg h17, if_neg h18, if_neg h19, if_neg h20, if_neg h21,
    if_neg h22, if_neg h23, if_neg h24, if_neg h25, if_neg h26, if_neg h27, if_neg h28,
    if_neg h29, if_neg h30, if_neg h31, if_neg h32, if_neg h33, if_neg h34, if_neg h35]

set_option maxHeartbeats 4000000 in
theorem stepTag_increase (bytes : List Nat) (idx t : Nat) (st : DecodeState)
    (h : idx < bytes.length) : idx < (stepTag bytes idx t st).1 := by
  have hs := readStringNullTerm_increase bytes (idx + 1)
  by_cases hk : knownTag t = true
  · have hd : t = 0x01 ∨ t = 0x02 ∨ t = 0x03 ∨ t = 0x04 ∨ t = 0x05 ∨ t = 0x06 ∨
        t = 0x07 ∨ t = 0x08 ∨ t = 0x09 ∨ t = 0x0a ∨ t = 0x0b ∨ t = 0x0c ∨
        t = 0x0d ∨ t = 0x0e ∨ t = 0x0f ∨ t = 0x10 ∨ t = 0x11 ∨ t = 0x12 ∨
        t = 0x13 ∨ t = 0x14 ∨ t = 0x15 ∨ t = 0x18 ∨ t = 0x22 ∨ t = 0x77 ∨
        t = 0x78 ∨ t = 0x79 ∨ t = 0x7d ∨ t = 0x80 ∨ t = 0x94 ∨ t = 0x95 ∨
        t = 0x96 ∨ t = 0x97 ∨ t = 0x98 ∨ t = 0x99 ∨ t = 0x9a :=
      of_decide_eq_true hk
    rcases hd with h1|h1|h1|h1|h1|h1|h1|h1|h1|h1|h1|h1|h1|h1|h1|h1|h1|h1|h1|h1|h1|
      h1|h1|h1|h1|h1|h1|h1|h1|h1|h1|h1|h1|h1|h1 <;>
      subst h1 <;> (unfold stepTag; norm_num) <;>
      first
        | omega
        | (split_ifs <;> dsimp only <;> omega)
  · have hk2 : knownTag t = false := by
      cases hkv : knownTag t
      · rfl
      · exact absurd hkv hk
    rw [stepTag_unknown bytes idx t st hk2]
    dsimp only
    omega

theorem decodeStep_increase (bytes : List Nat) (idx : Nat) (st : DecodeState)
    (h : idx < bytes.length) : idx < (decodeStep bytes idx st).1 :=
  stepTag_increase bytes idx (byteAt bytes idx) st h

theorem decodeLoop_succ (bytes : List Nat) (fuel idx : Nat) (st : DecodeState) :
    decodeLoop bytes (fuel + 1) idx st =
      if idx < bytes.length then
        decodeLoop bytes fuel (decodeStep bytes idx st).1 (decodeStep bytes idx st).2
      else st :=
  rfl

theorem decodeLoop_past (bytes : List Nat) (fuel idx : Nat) (st : DecodeState)
    (h : bytes.length ≤ idx) : decodeLoop bytes fuel idx st = st := by
  cases fuel with
  | zero => rfl
  | succ fuel =>
    unfold decodeLoop
    rw [if_neg (by omega)]

theorem decodeLoop_stable (bytes : List Nat) : ∀ f1 f2 idx st,
    bytes.length - idx ≤ f1 → bytes.length - idx ≤ f2 →
    decodeLoop bytes f1 idx st = decodeLoop bytes f2 idx st := by
  intro f1
  induction f1 with
  | zero =>
    intro f2 idx st h1 h2
    rw [decodeLoop_past bytes 0 idx st (by omega), decodeLoop_past bytes f2 idx st (by omega)]
  | succ f1 ih =>
    intro f2 idx st h1 h2
    by_cases hc : idx < bytes.length
    · cases f2 with
      | zero => omega
      | succ f2 =>
        unfold decodeLoop
        rw [if_pos hc, if_pos hc]
        have hinc := decodeStep_increase bytes idx st hc
        exact ih f2 _ _ (by omega) (by omega)
    · rw [decodeLoop_past bytes _ idx st (by omega), decodeLoop_past bytes f2 idx st (by omega)]

theorem Reaches_le {bytes : List Nat} {i j : Nat} {st st2 : DecodeState}
    (h : Reaches bytes i st j st2) : i ≤ j := by
  induction h with
  | refl i st => exact le_refl i
  | step hlt hs hr ih =>
    rename_i i j k st st1 st2
    have h1 : i < j := by
      have := decodeStep_increase bytes i st hlt
      rw [hs] at this
      exact this
    omega

theorem decodeLoop_absorb {bytes : List Nat} {i j : Nat} {st st2 : DecodeState}
    (h : Reaches bytes i st j st2) :
    ∀ fuel, bytes.length - i ≤ fuel →
      decodeLoop bytes fuel i st = decodeLoop bytes (bytes.length - j) j st2 := by
  induction h with
  | refl i st =>
    intro fuel hf
    exact decodeLoop_stable bytes fuel _ i st hf (le_refl _)
  | step hlt hs hr ih =>
    rename_i i j1 k st st1 st2
    intro fuel hf
    have h1 : i < j1 := by
      have := decodeStep_increase bytes i st hlt
      rw [hs] at this
      exact this
    cases fuel with
    | zero => omega
    | succ fuel =>
      have hgoal := ih fuel (show bytes.length - j1 ≤ fuel by omega)
      rw [decodeLoop_succ, if_pos hlt, hs]
      exact hgoal

theorem decodeUplink_210_eq (bytes : List Nat) (h : 2 ≤ bytes.length) :
    decodeUplink bytes 210 =
      { data := (decodeLoop bytes bytes.length 1 ⟨[], []⟩).data,
        errors := [],
        warnings := (decodeLoop bytes bytes.length 1 ⟨[], []⟩).warnings } := by
  unfold decodeUplink
  norm_num
  omega

/-- C9: decode terminates on every finite buffer.  First conjunct: the
null-terminated-string reader always returns a next index strictly past
its starting index.  Second conjunct: every iteration of the tag loop
strictly increases the cursor.  Third conjunct: the loop result is the
same under any fuel of at least the remaining buffer length, so the number
of iterations is bounded by the buffer length. -/
theorem decodeUplink_terminates :
    (∀ (bytes : List Nat) (i : Nat), i < (readStringNullTerm bytes i).2) ∧
    (∀ (bytes : List Nat) (idx : Nat) (st : DecodeState),
      idx < bytes.length → idx < (decodeStep bytes idx st).1) ∧
    (∀ (bytes : List Nat) (f1 f2 idx : Nat) (st : DecodeState),
      bytes.length - idx ≤ f1 → bytes.length - idx ≤ f2 →
      decodeLoop bytes f1 idx st = decodeLoop bytes f2 idx st) :=
  ⟨readStringNullTerm_increase,
    fun bytes idx st h => decodeStep_increase bytes idx st h,
    fun bytes f1 f2 idx st h1 h2 => decodeLoop_stable bytes f1 f2 idx st h1 h2⟩

/-- Witness for C9 at concrete inputs. -/
theorem decodeUplink_terminates_witness :
    1 < (decodeStep [0, 1, 3] 1 ⟨[], []⟩).1 ∧
    decodeLoop [0, 1, 3] 3 1 ⟨[], []⟩ = decodeLoop [0, 1, 3] 99 1 ⟨[], []⟩ ∧
    0 < (readStringNullTerm [7, 7, 0] 0).2 :=
  ⟨decodeUplink_terminates.2.1 [0, 1, 3] 1 ⟨[], []⟩ (by norm_num),
    decodeUplink_terminates.2.2 [0, 1, 3] 3 99 1 ⟨[], []⟩ (by norm_num) (by norm_num),
    decodeUplink_terminates.1 [7, 7, 0] 0⟩

/-- C2: when the tag loop, started at offset 1 on a buffer sent to fPort
210, reaches a position p carrying an unregistered tag byte after a clean
run (no warnings so far, which is the case after any sequence of complete
known-tag fields), decode returns exactly the attributes collected before
p plus one warning naming the unknown tag, and the step at p moves the
cursor to the end of the buffer, so no byte after p is ever interpreted. -/
theorem decodeUplink_stops_at_unknown_tag (bytes : List Nat) (p : Nat) (st : DecodeState)
    (hre : Reaches bytes 1 ⟨[], []⟩ p st) (hw : st.warnings = [])
    (hp : p < bytes.length) (hunk : knownTag (byteAt bytes p) = false) :
    decodeUplink bytes 210 =
      { data := st.data, errors := [],
        warnings := [unknownWarning (byteAt bytes p) p] } ∧
    (decodeStep bytes p st).1 = bytes.length := by
  have h1 : 1 ≤ p := Reaches_le hre
  have hstep : decodeStep bytes p st =
      (bytes.length, pushWarn st (unknownWarning (byteAt bytes p) p)) :=
    stepTag_unknown bytes p (byteAt bytes p) st hunk
  constructor
  · rw [decodeUplink_210_eq bytes (by omega)]
    have habs := decodeLoop_absorb hre bytes.length (by omega)
    obtain ⟨f, hf⟩ : ∃ f, bytes.length - p = f + 1 := ⟨bytes.length - p - 1, by omega⟩
    rw [hf] at habs
    rw [habs]
    unfold decodeLoop
    rw [if_pos hp, hstep]
    dsimp only
    rw [decodeLoop_past bytes f bytes.length _ (le_refl _)]
    simp [pushWarn, hw]
  · rw [hstep]

/-- Witness for C2 at a concrete buffer: a model field, then the unknown
tag 0x50, then two trailing bytes that are never interpreted. -/
theorem decodeUplink_stops_at_unknown_tag_witness :
    decodeUplink [0, 1, 3, 0x50, 255, 255] 210 =
      { data := [("model", JVal.str "AN-303")], errors := [],
        warnings := [unknownWarning 0x50 3] } ∧
    (decodeStep [0, 1, 3, 0x50, 255, 255] 3 ⟨[("model", JVal.str "AN-303")], []⟩).1 = 6 :=
  decodeUplink_stops_at_unknown_tag [0, 1, 3, 0x50, 255, 255] 3
    ⟨[("model", JVal.str "AN-303")], []⟩
    (Reaches.step (by norm_num) rfl (Reaches.refl 3 _)) rfl (by norm_num) rfl

/-- Counterexample to C4 as stated: on the buffer [0x00, 0x10, 0x04] the
temperature field (tag 0x10, declared width 2) overruns the buffer, but
the loop does not terminate after the truncated-field warning: the
leftover byte 0x04 is read as a new tag and produces a second truncation
warning. -/
theorem decodeUplink_truncation_not_terminating_counterexample :
    decodeUplink [0, 0x10, 4] 210 =
      { data := [], errors := [],
        warnings := ["Truncated temperature", "Truncated battery voltage"] } := by
  rfl

/-- Declared widths and truncation warnings of the fixed-width tags of the
decodeUplink switch (tag, width, warning). -/
def truncTable : List (Nat × Nat × String) :=
  [(0x01, 1, "Truncated model field"), (0x02, 4, "Truncated downlink count"),
    (0x03, 1, "Truncated tamper event"), (0x04, 2, "Truncated battery voltage"),
    (0x05, 1, "Truncated battery event"),
    (0x0a, 4, "Truncated P2P update frequency"), (0x0b, 4, "Truncated P2P config frequency"),
    (0x10, 2, "Truncated temperature"), (0x11, 1, "Truncated temperature event"),
    (0x12, 2, "Truncated humidity"), (0x13, 1, "Truncated humidity event"),
    (0x14, 1, "Truncated SOS event"), (0x15, 2, "Truncated gas concentration"),
    (0x18, 1, "Truncated door state"), (0x22, 1, "Truncated relay state"),
    (0x77, 1, "Truncated tamper state"), (0x78, 4, "Truncated heartbeat interval"),
    (0x79, 4, "Truncated timestamp"), (0x7d, 1, "Truncated battery voltage state"),
    (0x80, 4, "Truncated timer status"), (0x94, 1, "Truncated RS485 address"),
    (0x96, 1, "Truncated lock state"), (0x97, 2, "Truncated voltage"),
    (0x98, 2, "Truncated current"), (0x99, 2, "Truncated power"),
    (0x9a, 4, "Truncated energy")]

/-- Equation of the tag-0x95 branch of stepTag, obtained by computing the
literal tag comparisons of the switch. -/
theorem stepTag_95 (bytes : List Nat) (idx : Nat) (st : DecodeState) :
    stepTag bytes idx 0x95 st =
      if bytes.length ≤ idx + 1 then (idx + 1, pushWarn st "Missing Modbus data length")
      else
        (min (idx + 2 + byteAt bytes (idx + 1)) bytes.length,
          pushData
            (if bytes.length < idx + 2 + byteAt bytes (idx + 1) then
              pushWarn st "Modbus block exceeds payload, trimming"
            else st)
            (parseModbusBlock
              ((bytes.take (min (idx + 2 + byteAt bytes (idx + 1)) bytes.length)).drop
                (idx + 2)))) :=
  rfl

set_option maxHeartbeats 4000000 in
/-- C4 amended: when the loop reads a known fixed-width tag whose declared
width would overrun the buffer, it appends the truncated-field warning for
that tag, writes no partial value, never reads past the end, and continues
at the byte after the tag (so the loop terminates only when the cursor has
reached the end of the buffer, not immediately); for the length-prefixed
block tag 0x95 an overrunning declared length instead produces a trimming
warning and the block is parsed truncated to the available bytes, with the
cursor jumping to the end. -/
theorem decodeUplink_truncated_field_behavior :
    (∀ e ∈ truncTable, ∀ (bytes : List Nat) (idx : Nat) (st : DecodeState),
      byteAt bytes idx = e.1 → bytes.length < idx + 1 + e.2.1 →
      decodeStep bytes idx st = (idx + 1, pushWarn st e.2.2)) ∧
    (∀ (bytes : List Nat) (idx : Nat) (st : DecodeState),
      byteAt bytes idx = 0x95 → idx + 1 < bytes.length →
      bytes.length < idx + 2 + byteAt bytes (idx + 1) →
      decodeStep bytes idx st =
        (bytes.length,
          pushData (pushWarn st "Modbus block exceeds payload, trimming")
            (parseModbusBlock ((bytes.take bytes.length).drop (idx + 2))))) := by
  constructor
  · intro e he bytes idx st ht hlen
    fin_cases he <;> dsimp only at ht hlen ⊢ <;>
      (unfold decodeStep; rw [ht]; unfold stepTag; norm_num) <;>
      first
        | rfl
        | omega
  · intro bytes idx st ht h1 h2
    unfold decodeStep
    rw [ht, stepTag_95,
      if_neg (show ¬bytes.length ≤ idx + 1 by omega),
      min_eq_right (show bytes.length ≤ idx + 2 + byteAt bytes (idx + 1) by omega),
      if_pos h2]

/-- Witness for the amended C4 at concrete inputs: a truncated temperature
field, and a Modbus block whose declared length 5 exceeds the 2 available
bytes. -/
theorem decodeUplink_truncated_field_behavior_witness :
    decodeStep [0, 0x10, 4] 1 ⟨[], []⟩ = (2, pushWarn ⟨[], []⟩ "Truncated temperature") ∧
    decodeStep [0, 0x95, 5, 1, 2] 1 ⟨[], []⟩ =
      (5, pushData (pushWarn ⟨[], []⟩ "Modbus block exceeds payload, trimming")
        (parseModbusBlock (([0, 0x95, 5, 1, 2].take 5).drop 3))) :=
  ⟨decodeUplink_truncated_field_behavior.1 (0x10, 2, "Truncated temperature")
      (by decide) [0, 0x10, 4] 1 ⟨[], []⟩ rfl (by norm_num),
    decodeUplink_truncated_field_behavior.2 [0, 0x95, 5, 1, 2] 1 ⟨[], []⟩ rfl
      (by norm_num) (by decide)⟩

end Unified

namespace Thermostat

/-- JS Math.round: round half toward positive infinity. -/
def jsRound (q : ℚ) : Int :=
  ⌊q + 1 / 2⌋

/-- JS ToInt32 truncation toward zero, for the (unreachable from the
encoder) default branch of getValueForRegister, which returns the raw
number later masked by the bitwise frame arithmetic. -/
def jsTrunc (q : ℚ) : Int :=
  Int.tdiv q.num (q.den : Int)

/-- Source function getValueForRegister: scaling, clamping and truthiness
conversion of a control value, per field name. -/
def getValueForRegister (fieldName : String) (value : ℚ) : Int :=
  if fieldName = "setTemperature" then jsRound (value * 100)
  else if fieldName = "workMode" then max 0 (min 3 (jsRound value))
  else if fieldName = "fanSpeed" then max 0 (min 4 (jsRound value))
  else if fieldName = "remotePower" then (if value ≠ 0 then 1 else 0)
  else if fieldName = "remoteLock" then (if value ≠ 0 then 1 else 0)
  else if fieldName = "remoteReboot" then (if value ≠ 0 then 1 else 0)
  else if fieldName = "remoteClear" then (if value ≠ 0 then 1 else 0)
  else if fieldName = "wirelessSignal" then max 0 (min 3 (jsRound value))
  else jsTrunc value

/-- One resolved register write of the control encoder (field name,
register address, scaled value). -/
structure Cmd where
  field : String
  address : Nat
  value : Int
deriving DecidableEq

/-- Source table REGISTER_MAP, in object entry order (which is also
ascending address order). -/
def REGISTER_MAP : List (String × Nat) :=
  [("setTemperature", 0x0004), ("workMode", 0x0005), ("fanSpeed", 0x0006),
    ("remotePower", 0xF000), ("remoteLock", 0xF001), ("remoteReboot", 0xF002),
    ("remoteClear", 0xF003), ("wirelessSignal", 0xF004)]

/-- Control request handed to encodeDownlink: the eight possible control
fields (absent fields are none, mirroring undefined) and the optional
slave address.  Inputs carrying the at / modbusBytes / modbusHex options
return from the earlier modes of the source function and never reach the
control path, so they are outside this model; the claims quantify over
control requests only. -/
structure EncodeData where
  setTemperature : Option ℚ
  workMode : Option ℚ
  fanSpeed : Option ℚ
  remotePower : Option ℚ
  remoteLock : Option ℚ
  remoteReboot : Option ℚ
  remoteClear : Option ℚ
  wirelessSignal : Option ℚ
  slaveAddr : Option Nat
deriving DecidableEq

/-- Lookup data[fieldName] for the control fields. -/
def fieldValue (d : EncodeData) : String → Option ℚ
  | "setTemperature" => d.setTemperature
  | "workMode" => d.workMode
  | "fanSpeed" => d.fanSpeed
  | "remotePower" => d.remotePower
  | "remoteLock" => d.remoteLock
  | "remoteReboot" => d.remoteReboot
  | "remoteClear" => d.remoteClear
  | "wirelessSignal" => d.wirelessSignal
  | _ => none

/-- JS data.slaveAddr || 0x01 (0 and undefined are falsy). -/
def effectiveSlaveAddr (d : EncodeData) : Nat :=
  match d.slaveAddr with
  | none => 1
  | some 0 => 1
  | some n => n

/-- Collection loop of encodeDownlink over the entries of REGISTER_MAP:
one Cmd per present field, in table order. -/
def collectCommands (d : EncodeData) : List Cmd :=
  REGISTER_MAP.filterMap (fun e =>
    (fieldValue d e.1).map (fun q => ⟨e.1, e.2, getValueForRegister e.1 q⟩))

/-- Insertion into an address-sorted command list. -/
def insertCmd (c : Cmd) : List Cmd → List Cmd
  | [] => [c]
  | x :: xs => if c.address ≤ x.address then c :: x :: xs else x :: insertCmd c xs

/-- The sort controlCommands.sort((a, b) => a.address - b.address) of the
source, rendered as insertion sort (addresses are distinct, so any
ascending sort produces the same list). -/
def sortCmds (l : List Cmd) : List Cmd :=
  l.foldr insertCmd []

/-- The sorted resolved command list of one encodeDownlink call. -/
def controlCommands (d : EncodeData) : List Cmd :=
  sortCmds (collectCommands d)

/-- Source predicate areRegistersConsecutive: every address is exactly one
more than its predecessor in the sorted list. -/
def areRegistersConsecutive : List Cmd → Bool
  | [] => true
  | [_] => true
  | a :: b :: rest => (b.address == a.address + 1) && areRegistersConsecutive (b :: rest)

/-- Result of encodeDownlink. -/
structure EncodeResult where
  bytes : List Nat
  fPort : Nat
  errors : List String
  warnings : List String
deriving DecidableEq

/-- Warning pushed when no control field is present. -/
def noFieldsWarning : String :=
  "No control fields detected. Available fields: setTemperature, workMode, fanSpeed, remotePower, remoteLock, remoteReboot, remoteClear, wirelessSignal"

/-- Warning pushed on the non-consecutive fallback path. -/
def nonConsecutiveWarning : String :=
  "Non-consecutive registers detected, only first command will be sent"

/-- Single-register write frame (06 instruction) for one command. -/
def singleWriteBytes (c : Cmd) : List Nat :=
  [0x06, 0x06, hi8 c.address, lo8 c.address, hiByteI c.value, loByteI c.value]

/-- Multi-register Modbus frame (before the CRC trailer): slave address,
function 0x10, start address, register count, byte count, then the values
big-endian in list order. -/
def multiWriteFrame (slaveAddr : Nat) (cmds : List Cmd) : List Nat :=
  [lo8 slaveAddr, 0x10,
    hi8 (cmds.headD ⟨"", 0, 0⟩).address, lo8 (cmds.headD ⟨"", 0, 0⟩).address,
    hi8 cmds.length, lo8 cmds.length, lo8 (cmds.length * 2)] ++
    (cmds.map (fun c => [hiByteI c.value, loByteI c.value])).flatten

/-- Control-command path of the source function encodeDownlink of the
thermostat codec (src/js/EF5600-DN1.js, second document): collect and sort
the resolved writes, then pick the empty, single-write, consecutive
multi-write, or non-consecutive fallback branch. -/
def encodeDownlink (input : EncodeData) : EncodeResult :=
  let cmds := controlCommands input
  if cmds.length = 0 then
    { bytes := [], fPort := 2, errors := [], warnings := [noFieldsWarning] }
  else if cmds.length = 1 then
    { bytes := singleWriteBytes (cmds.headD ⟨"", 0, 0⟩), fPort := 2,
      errors := [], warnings := [] }
  else if 2 ≤ cmds.length ∧ areRegistersConsecutive cmds = true then
    { bytes := 0x07 :: (multiWriteFrame (effectiveSlaveAddr input) cmds ++
        modbusCRC16 (multiWriteFrame (effectiveSlaveAddr input) cmds)),
      fPort := 2, errors := [], warnings := [] }
  else
    { bytes := singleWriteBytes (cmds.headD ⟨"", 0, 0⟩), fPort := 2,
      errors := [], warnings := [nonConsecutiveWarning] }

/-- Address ordering of resolved commands. -/
def cmdLE (a b : Cmd) : Prop :=
  a.address ≤ b.address

theorem insertCmd_mem {x c : Cmd} : ∀ {l : List Cmd},
    x ∈ insertCmd c l → x = c ∨ x ∈ l := by
  intro l
  induction l with
  | nil =>
    intro h
    simp only [insertCmd, List.mem_singleton] at h
    exact Or.inl h
  | cons a t ih =>
    intro h
    unfold insertCmd at h
    split_ifs at h
    · simpa using h
    · rcases List.mem_cons.mp h with h1 | h1
      · exact Or.inr (by simp [h1])
      · rcases ih h1 with h2 | h2
        · exact Or.inl h2
        · exact Or.inr (by simp [h2])

theorem insertCmd_pairwise {c : Cmd} : ∀ {l : List Cmd},
    List.Pairwise cmdLE l → List.Pairwise cmdLE (insertCmd c l) := by
  intro l
  induction l with
  | nil => intro _; simp [insertCmd, cmdLE]
  | cons a t ih =>
    intro h
    rcases List.pairwise_cons.mp h with ⟨ha, ht⟩
    unfold insertCmd
    split_ifs with hle
    · refine List.pairwise_cons.mpr ⟨?_, h⟩
      intro y hy
      rcases List.mem_cons.mp hy with h1 | h1
      · subst h1; exact hle
      · exact le_trans hle (ha y h1)
    · refine List.pairwise_cons.mpr ⟨?_, ih ht⟩
      intro y hy
      rcases insertCmd_mem hy with h1 | h1
      · subst h1
        unfold cmdLE
        omega
      · exact ha y h1

theorem sortCmds_pairwise (l : List Cmd) : List.Pairwise cmdLE (sortCmds l) := by
  induction l with
  | nil => simp [sortCmds]
  | cons a t ih => exact insertCmd_pairwise ih

theorem headD_min {l : List Cmd} (hp : List.Pairwise cmdLE l) :
    ∀ c ∈ l, (l.headD ⟨"", 0, 0⟩).address ≤ c.address := by
  cases l with
  | nil => intro c hc; simp at hc
  | cons a t =>
    intro c hc
    rcases List.mem_cons.mp hc with h | h
    · subst h; simp
    · exact (List.pairwise_cons.mp hp).1 c h

/-- C1: for every control request resolving to two or more register writes
whose sorted addresses are consecutive, encode emits the channel marker
0x07 followed by the multi-write frame [slave][0x10][startAddrHi]
[startAddrLo][countHi][countLo][byteCount][values big-endian in address
order] and the 2-byte checksum of exactly those frame bytes (from the
node-identifier byte through the last value byte), low byte first, with
startAddr the lowest address, count the number of writes and
byteCount = 2 * count; no errors and no warnings are reported. -/
theorem encodeDownlink_multi_write (d : EncodeData)
    (h2 : 2 ≤ (controlCommands d).length)
    (hc : areRegistersConsecutive (controlCommands d) = true) :
    encodeDownlink d =
      { bytes := 0x07 :: (multiWriteFrame (effectiveSlaveAddr d) (controlCommands d) ++
          modbusCRC16 (multiWriteFrame (effectiveSlaveAddr d) (controlCommands d))),
        fPort := 2, errors := [], warnings := [] } ∧
    (∀ c ∈ controlCommands d,
      ((controlCommands d).headD ⟨"", 0, 0⟩).address ≤ c.address) := by
  constructor
  · unfold encodeDownlink
    dsimp only
    split_ifs with hA hB hC
    · omega
    · omega
    · rfl
    · exact absurd ⟨h2, hc⟩ hC
  · exact headD_min (sortCmds_pairwise (collectCommands d))

/-- Witness for C1: remotePower, remoteLock and remoteReboot resolve to
the consecutive addresses 0xF000, 0xF001, 0xF002. -/
theorem encodeDownlink_multi_write_witness :
    encodeDownlink ⟨none, none, none, some 1, some 1, some 0, none, none, none⟩ =
      { bytes := 0x07 ::
          (multiWriteFrame 1
            (controlCommands ⟨none, none, none, some 1, some 1, some 0, none, none, none⟩) ++
          modbusCRC16 (multiWriteFrame 1
            (controlCommands ⟨none, none, none, some 1, some 1, some 0, none, none, none⟩))),
        fPort := 2, errors := [], warnings := [] } ∧
    (∀ c ∈ controlCommands ⟨none, none, none, some 1, some 1, some 0, none, none, none⟩,
      ((controlCommands
        ⟨none, none, none, some 1, some 1, some 0, none, none, none⟩).headD
          ⟨"", 0, 0⟩).address ≤ c.address) :=
  encodeDownlink_multi_write ⟨none, none, none, some 1, some 1, some 0, none, none, none⟩
    (by decide) (by decide)

/-- Counterexample to C3 as stated: for the non-consecutive requests
(remotePower, remoteReboot) with addresses 0xF000 and 0xF002, and
(remotePower, remoteClear) with addresses 0xF000 and 0xF003, encode emits
the same fixed warning text although the dropped attributes and addresses
differ, so the warning identifies neither the dropped attributes nor their
addresses. -/
theorem encodeDownlink_nonconsec_warning_not_identifying :
    (encodeDownlink ⟨none, none, none, some 1, none, some 1, none, none, none⟩).warnings =
      [nonConsecutiveWarning] ∧
    (encodeDownlink ⟨none, none, none, some 1, none, none, some 1, none, none⟩).warnings =
      (encodeDownlink ⟨none, none, none, some 1, none, some 1, none, none, none⟩).warnings ∧
    controlCommands ⟨none, none, none, some 1, none, some 1, none, none, none⟩ ≠
      controlCommands ⟨none, none, none, some 1, none, none, some 1, none, none⟩ ∧
    (encodeDownlink ⟨none, none, none, some 1, none, some 1, none, none, none⟩).bytes =
      singleWriteBytes ⟨"remotePower", 0xF000, 1⟩ ∧
    (encodeDownlink ⟨none, none, none, some 1, none, none, some 1, none, none⟩).bytes =
      singleWriteBytes ⟨"remotePower", 0xF000, 1⟩ := by
  refine ⟨rfl, rfl, ?_, rfl, rfl⟩
  decide

/-- C3 amended: for every control request resolving to two or more writes
whose sorted addresses are not consecutive, encode produces a single-write
frame for exactly the lowest-address write and appends the fixed warning
that only the first command will be sent; the warning states that the rest
are dropped but does not name the dropped attributes or addresses. -/
theorem encodeDownlink_nonconsec_fallback (d : EncodeData)
    (h2 : 2 ≤ (controlCommands d).length)
    (hc : areRegistersConsecutive (controlCommands d) = false) :
    encodeDownlink d =
      { bytes := singleWriteBytes ((controlCommands d).headD ⟨"", 0, 0⟩),
        fPort := 2, errors := [], warnings := [nonConsecutiveWarning] } ∧
    (∀ c ∈ controlCommands d,
      ((controlCommands d).headD ⟨"", 0, 0⟩).address ≤ c.address) := by
  constructor
  · unfold encodeDownlink
    dsimp only
    split_ifs with hA hB hC
    · omega
    · omega
    · rw [hc] at hC
      exact absurd hC.2 Bool.false_ne_true
    · rfl
  · exact headD_min (sortCmds_pairwise (collectCommands d))

/-- Witness for the amended C3: remotePower (0xF000) and remoteClear
(0xF003) leave a gap. -/
theorem encodeDownlink_nonconsec_fallback_witness :
    encodeDownlink ⟨none, none, none, some 1, none, none, some 1, none, none⟩ =
      { bytes := singleWriteBytes
          ((controlCommands
            ⟨none, none, none, some 1, none, none, some 1, none, none⟩).headD ⟨"", 0, 0⟩),
        fPort := 2, errors := [], warnings := [nonConsecutiveWarning] } ∧
    (∀ c ∈ controlCommands ⟨none, none, none, some 1, none, none, some 1, none, none⟩,
      ((controlCommands
        ⟨none, none, none, some 1, none, none, some 1, none, none⟩).headD
          ⟨"", 0, 0⟩).address ≤ c.address) :=
  encodeDownlink_nonconsec_fallback ⟨none, none, none, some 1, none, none, some 1, none, none⟩
    (by decide) (by decide)

/-- Counterexample to C5 as stated: on a request with no recognized
control attribute, encode leaves the errors list empty and reports the
no-fields message in the warnings list instead. -/
theorem encodeDownlink_no_fields_warns_counterexample :
    encodeDownlink ⟨none, none, none, none, none, none, none, none, none⟩ =
      { bytes := [], fPort := 2, errors := [], warnings := [noFieldsWarning] } ∧
    (encodeDownlink ⟨none, none, none, none, none, none, none, none, none⟩).errors = [] :=
  ⟨rfl, rfl⟩

/-- C5 amended: for every control request in which no attribute name
resolves through the register map, encode returns no payload bytes, an
empty errors list, and appends the no-control-fields message to the
warnings list. -/
theorem encodeDownlink_no_recognized_fields (d : EncodeData)
    (h : controlCommands d = []) :
    encodeDownlink d =
      { bytes := [], fPort := 2, errors := [], warnings := [noFieldsWarning] } := by
  have hlen : (controlCommands d).length = 0 := by rw [h]; rfl
  unfold encodeDownlink
  dsimp only
  split_ifs <;> first | rfl | omega

/-- Witness for the amended C5 at the empty request. -/
theorem encodeDownlink_no_recognized_fields_witness :
    encodeDownlink ⟨none, none, none, none, none, none, none, none, none⟩ =
      { bytes := [], fPort := 2, errors := [], warnings := [noFieldsWarning] } :=
  encodeDownlink_no_recognized_fields ⟨none, none, none, none, none, none, none, none, none⟩
    (by decide)

end Thermostat
